import Mathlib

/-!
Shallow embedding of the buckhunt S3-bucket prober (Go) and proofs about it.

The repository contains several snapshots of the same tool:
- main.go: TUI variant whose prober uses only the AWS CLI strategy
  (analyzeBucket at main.go:147-172), plus a quiet CSV mode (main.go:191-232).
- src/unnamed/part_002: dual-strategy variant (checkAwsAccess + anonymous
  HTTP probing merged in analyzeBucket at part_002:146-236), with a worker
  pool (part_002:299-317) and a quiet CSV mode with summary line.
- src/unnamed/part_003 and part_004: earlier variants; part_004 lines 1-244
  is a CLI-only prober identical in logic to main.go's analyzeBucket, with
  its own cleanDomain (part_004:236-244).

Pure Go string functions are embedded as Lean functions on String/List Char;
external effects (the aws CLI invocation, the HTTP HEAD/GET/PUT calls) are
embedded as explicit environment values recording each operation's outcome,
so the probers become total functions of (environment, bucket name).
-/

/-! ## Go string primitives -/

/-- Does the first character list lead (i.e. start) the second one?
Models the comparison underlying Go strings.HasPrefix. -/
def segLeads : List Char → List Char → Bool
  | [], _ => true
  | _ :: _, [] => false
  | a :: as, b :: bs => a == b && segLeads as bs

/-- Does the pattern occur as a contiguous segment of the second list?
Models Go strings.Contains. -/
def hasSeg (pat : List Char) : List Char → Bool
  | [] => segLeads pat []
  | c :: rest => segLeads pat (c :: rest) || hasSeg pat rest

/-- Go strings.Contains(s, pat). -/
def strContains (s pat : String) : Bool :=
  hasSeg pat.toList s.toList

/-- Go strings.HasPrefix(s, pre). -/
def goHasPre (s pre : String) : Bool :=
  segLeads pre.toList s.toList

/-- Go strings.TrimPrefix(s, pre): drop pre from the front when it leads s. -/
def goTrimPre (s pre : String) : String :=
  if segLeads pre.toList s.toList then String.mk (s.toList.drop pre.toList.length) else s

/-- Go strings.TrimSuffix(s, suf): drop suf from the end when s ends with it. -/
def goTrimSuf (s suf : String) : String :=
  if segLeads suf.toList.reverse s.toList.reverse then
    String.mk (s.toList.take (s.toList.length - suf.toList.length))
  else s

/-- Go strings.TrimSpace: drop whitespace from both ends. -/
def goTrimSpace (s : String) : String :=
  String.mk (((s.toList.dropWhile Char.isWhitespace).reverse.dropWhile Char.isWhitespace).reverse)

/-- Go strings.ToLower (character-wise). -/
def goToLower (s : String) : String :=
  String.mk (s.toList.map Char.toLower)

/-- The slice domain[:idx] where idx = strings.Index(domain, "/"), or the
whole string when no slash occurs: everything before the first slash. -/
def cutAtFirstSlash (s : String) : String :=
  String.mk (s.toList.takeWhile (fun c => !(c == '/')))

/-- Rendering of a Go bool by fmt's %v verb. -/
def goBool (b : Bool) : String :=
  if b then "true" else "false"

/-! ## Domain normalizers -/

/-- cleanDomain of part_002 (lines 245-251) and part_003 (lines 178-184):
strip http:// then https://, cut at the first slash, trim whitespace. -/
def cleanDomain002 (domain : String) : String :=
  let d := goTrimPre (goTrimPre domain "http://") "https://"
  goTrimSpace (cutAtFirstSlash d)

/-- cleanDomain of part_004 (lines 236-244): trim, lower-case, strip the
three schemes, strip one trailing slash. -/
def cleanDomain004 (domain : String) : String :=
  let d := goTrimSpace domain
  let d := goToLower d
  let d := goTrimPre d "http://"
  let d := goTrimPre d "https://"
  let d := goTrimPre d "s3://"
  goTrimSuf d "/"

/-- The interactive-mode reader goroutine of main.go (lines 296-321):
a trimmed line is enqueued when it is non-empty and does not start with
the wildcard marker; otherwise it is skipped. -/
def interactiveNormalize (raw : String) : Option String :=
  let domain := goTrimSpace raw
  if domain != "" && !(goHasPre domain "*") then some domain else none

/-- The quiet-mode reader goroutine of main.go (lines 213-223): a trimmed
line is enqueued whenever it is non-empty; there is no wildcard check. -/
def quietNormalize (raw : String) : Option String :=
  let domain := goTrimSpace raw
  if domain != "" then some domain else none

/-- Job list produced by the interactive-mode reader from its input lines. -/
def interactiveJobs (lines : List String) : List String :=
  lines.filterMap interactiveNormalize

/-- Job list produced by the quiet-mode reader from its input lines. -/
def quietJobs (lines : List String) : List String :=
  lines.filterMap quietNormalize

/-! ## CLI-only prober (main.go analyzeBucket, also part_004 lines 58-87) -/

/-- Result record of main.go (lines 25-31) and part_004 (lines 50-56). -/
structure ResultCli where
  domain : String
  found : Bool := false
  canRead : Bool := false
  canWrite : Bool := false
  awsRead : Bool := false
deriving DecidableEq

/-- Outcome of running the command aws s3 ls s3://domain: none when the
command exits 0, some stderrText when it fails. -/
abbrev AwsCliOutcome := Option String

/-- analyzeBucket of main.go (lines 147-172), identical in logic to
part_004 lines 58-87. On success every CLI-strategy flag is set; on failure
the stderr text is matched: NoSuchBucket first, then AccessDenied or
AllAccessDisabled, else the result stays all-false. canWrite is never set. -/
def analyzeBucketCli (awsLs : AwsCliOutcome) (domain : String) : ResultCli :=
  match awsLs with
  | none =>
    { domain := domain, found := true, canRead := true, awsRead := true }
  | some stderrText =>
    if strContains stderrText "NoSuchBucket" then
      { domain := domain }
    else if strContains stderrText "AccessDenied" || strContains stderrText "AllAccessDisabled" then
      { domain := domain, found := true }
    else
      { domain := domain }

/-- CSV line printed by main.go (line 229) and part_004 (line 199):
fmt.Printf with domain,canRead,canWrite,awsRead. -/
def csvLineCli (r : ResultCli) : String :=
  r.domain ++ "," ++ goBool r.canRead ++ "," ++ goBool r.canWrite ++ "," ++ goBool r.awsRead

/-! ## Stats aggregator (main.go lines 116-145, part_002 lines 29-54) -/

/-- Shared counters; Go ints modelled as Nat (increment only ever adds). -/
structure Stats where
  total : Nat := 0
  found : Nat := 0
  notFound : Nat := 0
  withRead : Nat := 0
  withWrite : Nat := 0
  withAwsRead : Nat := 0
deriving DecidableEq

/-- Stats.increment (main.go lines 126-145; the atomic variant of part_002
lines 38-54 performs the same additions). The sync.Mutex / atomic.AddInt32
machinery serializes calls; each completed call is this pure update. -/
def Stats.increment (s : Stats) (found canRead canWrite awsRead : Bool) : Stats :=
  let s := { s with total := s.total + 1 }
  if !found then
    { s with notFound := s.notFound + 1 }
  else
    let s := { s with found := s.found + 1 }
    let s := if canRead then { s with withRead := s.withRead + 1 } else s
    let s := if canWrite then { s with withWrite := s.withWrite + 1 } else s
    if awsRead then { s with withAwsRead := s.withAwsRead + 1 } else s

/-- Fold a sequence of per-verdict flag tuples (found, canRead, canWrite,
awsRead) through Stats.increment starting from the zero Stats. -/
def foldStats (l : List (Bool × Bool × Bool × Bool)) : Stats :=
  l.foldl (fun st u => st.increment u.1 u.2.1 u.2.2.1 u.2.2.2) {}

/-- Stats reached after observing a list of CLI-prober results. -/
def statsOfCli (results : List ResultCli) : Stats :=
  results.foldl (fun st r => st.increment r.found r.canRead r.canWrite r.awsRead) {}

/-- Quiet-mode scan of main.go (lines 191-232), sequentialized: lines pass
through the quiet-mode reader filter, every surviving domain is probed, the
environment map gives each aws invocation's outcome. -/
def quietScanCli (envf : String → AwsCliOutcome) (lines : List String) : List ResultCli :=
  (quietJobs lines).map (fun d => analyzeBucketCli (envf d) d)

/-- Interactive-mode scan of main.go, sequentialized the same way but with
the wildcard-skipping reader filter. -/
def interactiveScanCli (envf : String → AwsCliOutcome) (lines : List String) : List ResultCli :=
  (interactiveJobs lines).map (fun d => analyzeBucketCli (envf d) d)

/-- CSV lines printed by main.go's quiet-mode result loop (lines 226-232):
one line per result with found && (canRead || awsRead); the loop then
returns without printing any summary line. -/
def mainGoQuietOutput (results : List ResultCli) : List String :=
  results.filterMap (fun r =>
    if r.found && (r.canRead || r.awsRead) then some (csvLineCli r) else none)

/-! ## Dual-strategy prober (part_002 lines 20-236) -/

/-- One manifest entry (part_002 S3File, lines 65-69). time.Parse whose
error is ignored is modelled by carrying the raw date string. -/
structure S3File where
  name : String
  size : Int
  lastModified : String
deriving DecidableEq

/-- Result record of part_002 (lines 56-63). -/
structure Result002 where
  domain : String
  found : Bool := false
  canRead : Bool := false
  canWrite : Bool := false
  awsRead : Bool := false
  files : List S3File := []
deriving DecidableEq

/-- Go strings.Fields: split around runs of whitespace, dropping empties. -/
def fieldsAux : List Char → List Char → List String
  | [], acc => if acc.isEmpty then [] else [String.mk acc.reverse]
  | c :: rest, acc =>
    if c.isWhitespace then
      if acc.isEmpty then fieldsAux rest [] else String.mk acc.reverse :: fieldsAux rest []
    else fieldsAux rest (c :: acc)

/-- Go strings.Fields on a String. -/
def goFields (s : String) : List String :=
  fieldsAux s.toList []

/-- Lines delivered by a bufio.Scanner over the text: split at newlines,
with no empty final token after a trailing newline. -/
def scanLinesAux : List Char → List Char → List String
  | [], acc => if acc.isEmpty then [] else [String.mk acc.reverse]
  | c :: rest, acc =>
    if c == '\n' then String.mk acc.reverse :: scanLinesAux rest []
    else scanLinesAux rest (c :: acc)

/-- bufio.Scanner line stream of a string. -/
def scanLines (s : String) : List String :=
  scanLinesAux s.toList []

/-- Decimal digit accumulation; fails on any non-digit character. -/
def decDigitsAux : List Char → Nat → Option Nat
  | [], acc => some acc
  | c :: rest, acc =>
    if c.isDigit then decDigitsAux rest (acc * 10 + (c.toNat - 48)) else none

/-- Go strconv.Atoi with the error ignored (the failed call leaves 0, as in
size, _ := strconv.Atoi(...)). Overflow of the 64-bit int is not modelled. -/
def goAtoi (s : String) : Int :=
  match s.toList with
  | [] => 0
  | '-' :: rest =>
    (match rest, decDigitsAux rest 0 with
     | _ :: _, some n => -(n : Int)
     | _, _ => 0)
  | '+' :: rest =>
    (match rest, decDigitsAux rest 0 with
     | _ :: _, some n => (n : Int)
     | _, _ => 0)
  | l =>
    (match decDigitsAux l 0 with
     | some n => (n : Int)
     | none => 0)

/-- Parse one line of aws s3 ls output (part_002 lines 113-128): at least 4
whitespace-separated fields give date, time, size and a space-joined name. -/
def parseLsLine (line : String) : Option S3File :=
  match goFields line with
  | p0 :: p1 :: p2 :: rest =>
    if rest.isEmpty then none
    else some { name := String.intercalate " " rest,
                size := goAtoi p2,
                lastModified := p0 ++ " " ++ p1 }
  | _ => none

/-- Manifest parsed from the stdout of aws s3 ls (part_002 lines 110-128). -/
def parseAwsLs (stdout : String) : List S3File :=
  (scanLines stdout).filterMap parseLsLine

/-- Outcome of the aws s3 ls command for part_002's checkAwsAccess: either
the failure text (exit error wrapped with the stderr) or the stdout text. -/
abbrev AwsRunOutcome := Except String String

/-- checkAwsAccess (part_002 lines 99-131): any command failure yields
(false, no files); success yields (true, parsed manifest). The failure
reason is returned to the caller but, as in the source, carries no
classification of its own. -/
def checkAwsAccess (run : AwsRunOutcome) : Bool × List S3File :=
  match run with
  | .error _ => (false, [])
  | .ok stdout => (true, parseAwsLs stdout)

/-- checkBucketACL (part_002 lines 71-97): anonymous GET then PUT against
the bucket URL. none models a transport error of that request; some code is
the received status. Error returns surface the booleans computed so far, which is
all the caller keeps. -/
def checkBucketACL (getResp putResp : Option Nat) : Bool × Bool :=
  match getResp with
  | none => (false, false)
  | some g =>
    let canRead := g == 200
    match putResp with
    | none => (canRead, false)
    | some p => (canRead, p == 200)

/-- Environment of one part_002 probe: the aws command outcome and the
HEAD / GET / PUT responses (none = transport error, some code = status). -/
structure Env002 where
  awsRun : AwsRunOutcome
  headResp : Option Nat
  getResp : Option Nat
  putResp : Option Nat

/-- analyzeBucket of part_002 (lines 146-236, effect-free core): strategy A
(credentialed listing, error discarded by awsRead, files, _ := ...), then
strategy B (HEAD; when it answers anything but 404 the bucket is marked
found and the anonymous ACL probes run). -/
def analyzeBucketFull (env : Env002) (bucketName : String) : Result002 :=
  let aws := checkAwsAccess env.awsRun
  let r1 : Result002 :=
    if aws.1 then { domain := bucketName, found := true, awsRead := true, files := aws.2 }
    else { domain := bucketName }
  match env.headResp with
  | none => r1
  | some code =>
    if code != 404 then
      let acl := checkBucketACL env.getResp env.putResp
      { r1 with found := true, canRead := acl.1, canWrite := acl.2 }
    else r1

/-- Existence as decided by strategy B alone: a HEAD answer other than 404. -/
def headExists (env : Env002) : Bool :=
  match env.headResp with
  | none => false
  | some code => code != 404

/-- CSV line of part_002's quiet mode (line 259). -/
def csvLine002 (r : Result002) : String :=
  r.domain ++ "," ++ goBool r.canRead ++ "," ++ goBool r.canWrite ++ "," ++ goBool r.awsRead

/-- Stats reached after observing a list of part_002 results
(processResults line 256). -/
def statsOf002 (results : List Result002) : Stats :=
  results.foldl (fun st r => st.increment r.found r.canRead r.canWrite r.awsRead) {}

/-- Summary line printed by part_002's main (lines 320-321). -/
def summaryLine (st : Stats) : String :=
  "# Summary: " ++ toString st.total ++ " tested, " ++ toString st.found ++ " found (" ++
  toString st.withRead ++ " readable, " ++ toString st.withWrite ++ " writable, " ++
  toString st.withAwsRead ++ " aws), " ++ toString st.notFound ++ " not found"

/-- CSV lines printed by part_002's processResults over the verdicts it
has consumed so far, in consumption order (lines 253-267): one line per
consumed verdict with canRead || canWrite || awsRead. The summary print in
main (lines 319-321) is deliberately NOT appended here: main never joins
the processResults goroutine (it only waits for the workers at line 316),
so the summary is a separate print that is not ordered after this stream;
see the QuietStep machine below. -/
def consumerCsvOut (consumed : List Result002) : List String :=
  consumed.filterMap (fun r =>
    if r.canRead || r.canWrite || r.awsRead then some (csvLine002 r) else none)

/-! ## Worker pool (part_002 main, lines 285-322)

The bulk-scan pipeline of part_002: the read domains go to a jobs channel
(buffered to len(domains), so enqueueing never blocks), workerCount workers
loop analyzeBucket over it, a supervisor goroutine waits on the WaitGroup
and closes the results channel, and processResults consumes results until
it has handled one per domain. Workers being interchangeable, the pool
state keeps a count of waiting and exited workers and the multiset of
domains currently being probed; the channels become queues (lists), and
channel closure becomes a flag. Each Go scheduling event is one step of the
PoolStep relation; the probe itself is a pure function of the domain. -/

structure PoolState where
  input : List String
  jobs : List String
  jobsClosed : Bool
  waiting : Nat
  probingJobs : Multiset String
  exited : Nat
  resultsQ : List Result002
  resultsClosed : Bool
  consumed : List Result002

/-- Pool state at the start of a scan: nothing enqueued, w idle workers. -/
def poolInit (names : List String) (w : Nat) : PoolState :=
  { input := names, jobs := [], jobsClosed := false, waiting := w,
    probingJobs := 0, exited := 0, resultsQ := [], resultsClosed := false,
    consumed := [] }

/-- One scheduling step of the part_002 pipeline. target is len(domains)
(the consumer's break count), w the worker count. -/
inductive PoolStep (probe : String → Result002) (target w : Nat) :
    PoolState → PoolState → Prop where
  | enqueue (s : PoolState) (d : String) (rest : List String) :
      s.input = d :: rest →
      PoolStep probe target w s { s with input := rest, jobs := s.jobs ++ [d] }
  | closeJobs (s : PoolState) :
      s.input = [] → s.jobsClosed = false →
      PoolStep probe target w s { s with jobsClosed := true }
  | takeJob (s : PoolState) (d : String) (rest : List String) :
      s.jobs = d :: rest → 0 < s.waiting →
      PoolStep probe target w s
        { s with jobs := rest, waiting := s.waiting - 1,
                 probingJobs := d ::ₘ s.probingJobs }
  | finishProbe (s : PoolState) (d : String) :
      d ∈ s.probingJobs →
      PoolStep probe target w s
        { s with probingJobs := s.probingJobs.erase d, waiting := s.waiting + 1,
                 resultsQ := s.resultsQ ++ [probe d] }
  | exitWorker (s : PoolState) :
      0 < s.waiting → s.jobsClosed = true → s.jobs = [] →
      PoolStep probe target w s
        { s with waiting := s.waiting - 1, exited := s.exited + 1 }
  | closeResults (s : PoolState) :
      s.exited = w → s.resultsClosed = false →
      PoolStep probe target w s { s with resultsClosed := true }
  | consume (s : PoolState) (r : Result002) (rest : List Result002) :
      s.resultsQ = r :: rest → s.consumed.length < target →
      PoolStep probe target w s
        { s with resultsQ := rest, consumed := s.consumed ++ [r] }

/-- Strictly decreasing measure over pool states: every PoolStep lowers it,
so no execution of the pipeline runs forever. -/
def poolMeasure (s : PoolState) : Nat :=
  4 * s.input.length + 3 * s.jobs.length + 3 * Multiset.card s.probingJobs +
  s.resultsQ.length + (if s.jobsClosed then 0 else 1) +
  (if s.resultsClosed then 0 else 1) + s.waiting

/-- Multiset of bucket names distributed over the whole pipeline. -/
def poolNames (s : PoolState) : Multiset String :=
  (s.input : Multiset String) + (s.jobs : Multiset String) + s.probingJobs +
  ((s.resultsQ.map Result002.domain : List String) : Multiset String) +
  ((s.consumed.map Result002.domain : List String) : Multiset String)

/-- Inductive invariant of the pool: names are conserved, workers are
accounted for, closure is monotone, and a worker only exits after the job
queue is closed and drained (after which it stays drained). -/
structure PoolInv (names : List String) (w : Nat) (s : PoolState) : Prop where
  conserve : poolNames s = (names : Multiset String)
  workers : s.waiting + Multiset.card s.probingJobs + s.exited = w
  closed_input : s.jobsClosed = true → s.input = []
  exited_done : 0 < s.exited → s.jobsClosed = true ∧ s.jobs = []
  consumed_le : s.consumed.length ≤ names.length

/-! ## Quiet-mode output machine (part_002 main, lines 285-322, with prints)

The pool events of PoolStep extended with the quiet-mode prints. The
consumer prints each qualifying CSV line as part of consuming a result
(processResults lines 256-262). main, after wg.Wait() (workers only; the
processResults goroutine started at line 314 is never joined) and
close(results), prints the summary over whatever the shared counters hold
at that instant (lines 319-321) and then returns, which terminates the
process and with it the consumer goroutine. Each Stats.increment call is
treated as indivisible, so the summary reads the statistics of the
verdicts consumed at print time; the code itself does not synchronize even
that much. -/

structure QuietState where
  pool : PoolState
  out : List String
  summaryDone : Bool
  halted : Bool

/-- Quiet-mode machine state at the start of a scan. -/
def quietInit (names : List String) (w : Nat) : QuietState :=
  { pool := poolInit names w, out := [], summaryDone := false, halted := false }

/-- One scheduling event of part_002's quiet mode: the pool events, the
consumer's CSV print attached to consumption, main's summary print gated
only on the results channel having been closed (i.e. on wg.Wait having
returned), and main's return, after which nothing further runs. -/
inductive QuietStep (probe : String → Result002) (target w : Nat) :
    QuietState → QuietState → Prop where
  | enqueue (q : QuietState) (d : String) (rest : List String) :
      q.halted = false → q.pool.input = d :: rest →
      QuietStep probe target w q
        { q with pool := { q.pool with input := rest, jobs := q.pool.jobs ++ [d] } }
  | closeJobs (q : QuietState) :
      q.halted = false → q.pool.input = [] → q.pool.jobsClosed = false →
      QuietStep probe target w q
        { q with pool := { q.pool with jobsClosed := true } }
  | takeJob (q : QuietState) (d : String) (rest : List String) :
      q.halted = false → q.pool.jobs = d :: rest → 0 < q.pool.waiting →
      QuietStep probe target w q
        { q with pool :=
            { q.pool with
                jobs := rest,
                waiting := q.pool.waiting - 1,
                probingJobs := d ::ₘ q.pool.probingJobs } }
  | finishProbe (q : QuietState) (d : String) :
      q.halted = false → d ∈ q.pool.probingJobs →
      QuietStep probe target w q
        { q with pool :=
            { q.pool with
                probingJobs := q.pool.probingJobs.erase d,
                waiting := q.pool.waiting + 1,
                resultsQ := q.pool.resultsQ ++ [probe d] } }
  | exitWorker (q : QuietState) :
      q.halted = false → 0 < q.pool.waiting → q.pool.jobsClosed = true → q.pool.jobs = [] →
      QuietStep probe target w q
        { q with pool :=
            { q.pool with
                waiting := q.pool.waiting - 1,
                exited := q.pool.exited + 1 } }
  | closeResults (q : QuietState) :
      q.halted = false → q.pool.exited = w → q.pool.resultsClosed = false →
      QuietStep probe target w q
        { q with pool := { q.pool with resultsClosed := true } }
  | consume (q : QuietState) (r : Result002) (rest : List Result002) :
      q.halted = false → q.pool.resultsQ = r :: rest → q.pool.consumed.length < target →
      QuietStep probe target w q
        { q with
          out := q.out ++
            (if r.canRead || r.canWrite || r.awsRead then [csvLine002 r] else []),
          pool := { q.pool with resultsQ := rest, consumed := q.pool.consumed ++ [r] } }
  | summaryPrint (q : QuietState) :
      q.halted = false → q.pool.resultsClosed = true → q.summaryDone = false →
      QuietStep probe target w q
        { q with
          out := q.out ++ [summaryLine (statsOf002 q.pool.consumed)],
          summaryDone := true }
  | mainReturn (q : QuietState) :
      q.halted = false → q.summaryDone = true →
      QuietStep probe target w q { q with halted := true }

/-- A concrete probe for the quiet-mode race: the part_002 prober under an
environment where the listing succeeds (empty bucket) and every anonymous
request answers 200; its verdict qualifies for a CSV line. -/
def probeOk (d : String) : Result002 :=
  analyzeBucketFull ⟨Except.ok "", some 200, some 200, some 200⟩ d

/-! ## Worker-count clamp (main.go lines 179-183, part_002 lines 274-278,
part_004 lines 119-123; all three are the same two-sided if) -/

/-- Effective worker count from the requested -w flag value. -/
def clampWorkers (w : Int) : Int :=
  if w < 1 then 1 else if w > 100 then 100 else w

/-! ## Theorems -/

/-- C7: the requested worker count is clamped to the range from 1 to 100
before use: the effective count is 1 below the range, 100 above it and the
request itself inside it, i.e. it is max 1 (min w 100); in particular a
request of 0 yields 1 and a request of 500 yields 100. -/
theorem clamp_workers_spec :
    (∀ w : Int, clampWorkers w = max 1 (min w 100)) ∧
    clampWorkers 0 = 1 ∧ clampWorkers 500 = 100 := by
  refine ⟨fun w => ?_, by decide, by decide⟩
  unfold clampWorkers
  split
  · omega
  · split <;> omega

/-- C8: the normalizer maps the scheme-prefixed, path-suffixed form
https://example.bucket/ and the bare name example.bucket to the same
canonical bucket name, in both cleanDomain variants of the repository. -/
theorem normalize_roundtrip_spec :
    cleanDomain002 "https://example.bucket/" = cleanDomain002 "example.bucket" ∧
    cleanDomain004 "https://example.bucket/" = cleanDomain004 "example.bucket" := by
  exact ⟨rfl, rfl⟩

/-- Helper: Stats.increment preserves total = found + notFound along any
left fold, from any state already satisfying it. -/
theorem foldl_increment_total (l : List (Bool × Bool × Bool × Bool)) :
    ∀ st : Stats, st.total = st.found + st.notFound →
      (l.foldl (fun st u => st.increment u.1 u.2.1 u.2.2.1 u.2.2.2) st).total =
        (l.foldl (fun st u => st.increment u.1 u.2.1 u.2.2.1 u.2.2.2) st).found +
        (l.foldl (fun st u => st.increment u.1 u.2.1 u.2.2.1 u.2.2.2) st).notFound := by
  induction l with
  | nil => intro st h; exact h
  | cons u rest ih =>
    intro st h
    obtain ⟨f, r, w, a⟩ := u
    apply ih
    cases f <;> cases r <;> cases w <;> cases a <;>
      simp [Stats.increment] <;> omega

/-- C2: each completed Stats.increment call adds exactly 1 to total,
exactly 1 to found when the verdict is found and exactly 1 to notFound
otherwise, adds 1 to each of withRead / withWrite / withAwsRead at most
once (exactly when found and the matching flag hold) and never decrements
anything; consequently total = found + notFound after any sequence of
completed increments from the zero state. -/
theorem stats_increment_spec :
    (∀ (st : Stats) (f r w a : Bool),
      (st.increment f r w a).total = st.total + 1 ∧
      (st.increment f r w a).found = st.found + (if f then 1 else 0) ∧
      (st.increment f r w a).notFound = st.notFound + (if f then 0 else 1) ∧
      (st.increment f r w a).withRead = st.withRead + (if f && r then 1 else 0) ∧
      (st.increment f r w a).withWrite = st.withWrite + (if f && w then 1 else 0) ∧
      (st.increment f r w a).withAwsRead = st.withAwsRead + (if f && a then 1 else 0)) ∧
    (∀ l : List (Bool × Bool × Bool × Bool),
      (foldStats l).total = (foldStats l).found + (foldStats l).notFound) := by
  constructor
  · intro st f r w a
    cases f <;> cases r <;> cases w <;> cases a <;>
      simp [Stats.increment]
  · intro l
    exact foldl_increment_total l {} rfl

/-- Helper: the CLI prober never sets canWrite (no anonymous write probe
exists in this variant). -/
theorem analyzeBucketCli_canWrite (aws : AwsCliOutcome) (d : String) :
    (analyzeBucketCli aws d).canWrite = false := by
  cases aws with
  | none => rfl
  | some msg =>
    simp only [analyzeBucketCli]
    split
    · rfl
    · split <;> rfl

/-- Helper: the CLI prober carries its input domain through unchanged. -/
theorem analyzeBucketCli_domain (aws : AwsCliOutcome) (d : String) :
    (analyzeBucketCli aws d).domain = d := by
  cases aws with
  | none => rfl
  | some msg =>
    simp only [analyzeBucketCli]
    split
    · rfl
    · split <;> rfl

/-- Helper: closed form of the part_002 prober. Existence is the
disjunction of the two strategies, the anonymous booleans come from the
ACL probe gated on the HEAD answer, and the credentialed flag and manifest
come from the listing alone. -/
theorem analyzeBucketFull_eq (env : Env002) (name : String) :
    analyzeBucketFull env name =
      { domain := name,
        found := (checkAwsAccess env.awsRun).1 || headExists env,
        canRead := headExists env && (checkBucketACL env.getResp env.putResp).1,
        canWrite := headExists env && (checkBucketACL env.getResp env.putResp).2,
        awsRead := (checkAwsAccess env.awsRun).1,
        files := if (checkAwsAccess env.awsRun).1 then (checkAwsAccess env.awsRun).2 else [] } := by
  obtain ⟨awsRun, headResp, getResp, putResp⟩ := env
  cases awsRun <;> cases headResp <;>
    simp only [analyzeBucketFull, checkAwsAccess, headExists] <;>
    first
      | rfl
      | (split <;> simp_all)

/-- Helper: the part_002 prober carries its input name through unchanged. -/
theorem analyzeBucketFull_domain (env : Env002) (name : String) :
    (analyzeBucketFull env name).domain = name := by
  rw [analyzeBucketFull_eq]

/-- C5: a part_002 verdict with exists = false has publicRead, publicWrite
and credentialRead all false and an empty manifest; likewise (manifest
apart, which this variant lacks) for the CLI-only prober of main.go. -/
theorem not_found_all_false_spec :
    (∀ (env : Env002) (name : String), (analyzeBucketFull env name).found = false →
      (analyzeBucketFull env name).canRead = false ∧
      (analyzeBucketFull env name).canWrite = false ∧
      (analyzeBucketFull env name).awsRead = false ∧
      (analyzeBucketFull env name).files = []) ∧
    (∀ (aws : AwsCliOutcome) (d : String), (analyzeBucketCli aws d).found = false →
      (analyzeBucketCli aws d).canRead = false ∧
      (analyzeBucketCli aws d).canWrite = false ∧
      (analyzeBucketCli aws d).awsRead = false) := by
  constructor
  · intro env name h
    rw [analyzeBucketFull_eq] at h ⊢
    simp only [Bool.or_eq_false_iff] at h
    simp [h.1, h.2]
  · intro aws d h
    refine ⟨?_, analyzeBucketCli_canWrite aws d, ?_⟩ <;>
      cases aws with
      | none => simp [analyzeBucketCli] at h
      | some msg =>
        simp only [analyzeBucketCli] at h ⊢
        split <;> first | rfl | (split <;> rfl)

/-- Witness for C5: a probe whose listing times out and whose HEAD gets no
answer yields exists = false with every access flag false and no manifest;
a CLI probe failing with NoSuchBucket likewise. -/
theorem not_found_all_false_witness :
    ((analyzeBucketFull ⟨Except.error "timeout", none, none, none⟩ "gone-bucket").canRead = false ∧
     (analyzeBucketFull ⟨Except.error "timeout", none, none, none⟩ "gone-bucket").canWrite = false ∧
     (analyzeBucketFull ⟨Except.error "timeout", none, none, none⟩ "gone-bucket").awsRead = false ∧
     (analyzeBucketFull ⟨Except.error "timeout", none, none, none⟩ "gone-bucket").files = []) ∧
    ((analyzeBucketCli (some "An error occurred (NoSuchBucket)") "gone-bucket").canRead = false ∧
     (analyzeBucketCli (some "An error occurred (NoSuchBucket)") "gone-bucket").canWrite = false ∧
     (analyzeBucketCli (some "An error occurred (NoSuchBucket)") "gone-bucket").awsRead = false) :=
  ⟨not_found_all_false_spec.1 ⟨Except.error "timeout", none, none, none⟩ "gone-bucket" rfl,
   not_found_all_false_spec.2 (some "An error occurred (NoSuchBucket)") "gone-bucket" (by decide)⟩

/-- Helper: a fold of Stats.increment over results that never carry
canWrite leaves withWrite untouched. -/
theorem foldl_increment_withWrite (results : List ResultCli) :
    ∀ st : Stats, (∀ r ∈ results, r.canWrite = false) →
      (results.foldl (fun st r => st.increment r.found r.canRead r.canWrite r.awsRead) st).withWrite
        = st.withWrite := by
  induction results with
  | nil => intro st _; rfl
  | cons r rest ih =>
    intro st h
    rw [List.foldl_cons, ih _ (fun x hx => h x (List.mem_cons_of_mem _ hx))]
    have hw : r.canWrite = false := h r (List.mem_cons_self _ _)
    cases hf : r.found <;> cases hr : r.canRead <;> cases ha : r.awsRead <;>
      simp [Stats.increment, hw, hf, hr, ha]

/-- C10: the CLI-only prober variants never set canWrite on any path (no
anonymous write probe exists there), so after any scan the withWrite
counter is 0 and the write column of every CSV line is the literal false. -/
theorem cli_no_write_spec :
    (∀ (aws : AwsCliOutcome) (d : String), (analyzeBucketCli aws d).canWrite = false) ∧
    (∀ (envf : String → AwsCliOutcome) (names : List String),
      (statsOfCli (names.map (fun n => analyzeBucketCli (envf n) n))).withWrite = 0) ∧
    (∀ (aws : AwsCliOutcome) (d : String),
      csvLineCli (analyzeBucketCli aws d) =
        d ++ "," ++ goBool (analyzeBucketCli aws d).canRead ++ "," ++ "false" ++ "," ++
          goBool (analyzeBucketCli aws d).awsRead) := by
  refine ⟨analyzeBucketCli_canWrite, ?_, ?_⟩
  · intro envf names
    exact foldl_increment_withWrite _ {} (by
      intro r hr
      obtain ⟨n, _, rfl⟩ := List.mem_map.1 hr
      exact analyzeBucketCli_canWrite _ n)
  · intro aws d
    simp [csvLineCli, analyzeBucketCli_canWrite, analyzeBucketCli_domain, goBool]

/-- C9: no single-probe failure aborts anything: the prober is total, the
scan of a name list produces exactly one verdict per name carrying that
name, and each strategy's outcome depends only on its own operations (the
credentialed flags only on the listing outcome, the anonymous flags only on
the HTTP outcomes), so a failed operation degrades only its own
contribution. -/
theorem probe_failure_isolation_spec :
    (∀ (envf : String → Env002) (names : List String),
      ((names.map (fun n => analyzeBucketFull (envf n) n)).map Result002.domain) = names ∧
      (names.map (fun n => analyzeBucketFull (envf n) n)).length = names.length) ∧
    (∀ (e1 e2 : Env002) (n : String),
      e1.headResp = e2.headResp → e1.getResp = e2.getResp → e1.putResp = e2.putResp →
      (analyzeBucketFull e1 n).canRead = (analyzeBucketFull e2 n).canRead ∧
      (analyzeBucketFull e1 n).canWrite = (analyzeBucketFull e2 n).canWrite) ∧
    (∀ (e1 e2 : Env002) (n : String), e1.awsRun = e2.awsRun →
      (analyzeBucketFull e1 n).awsRead = (analyzeBucketFull e2 n).awsRead ∧
      (analyzeBucketFull e1 n).files = (analyzeBucketFull e2 n).files) := by
  refine ⟨?_, ?_, ?_⟩
  · intro envf names
    constructor
    · rw [List.map_map]
      simp [Function.comp_def, analyzeBucketFull_domain]
    · exact List.length_map _ _
  · intro e1 e2 n h1 h2 h3
    rw [analyzeBucketFull_eq, analyzeBucketFull_eq]
    unfold headExists
    rw [h1, h2, h3]
    exact ⟨rfl, rfl⟩
  · intro e1 e2 n h
    rw [analyzeBucketFull_eq, analyzeBucketFull_eq]
    unfold checkAwsAccess
    rw [h]
    exact ⟨rfl, rfl⟩

/-- Witness for C9: concrete environments differing only in the other
strategy's outcome give the same per-strategy fields, and a scan of two
names under an all-failing environment still yields both verdicts. -/
theorem probe_failure_isolation_witness :
    ((([ "a-bucket", "b-bucket" ].map
        (fun n => analyzeBucketFull ⟨Except.error "connection refused", none, none, none⟩ n)).map
          Result002.domain) = ["a-bucket", "b-bucket"] ∧
      (([ "a-bucket", "b-bucket" ].map
        (fun n => analyzeBucketFull ⟨Except.error "connection refused", none, none, none⟩ n)).length
          = 2)) ∧
    ((analyzeBucketFull ⟨Except.ok "", some 200, some 200, some 403⟩ "b").canRead =
        (analyzeBucketFull ⟨Except.error "timeout", some 200, some 200, some 403⟩ "b").canRead ∧
      (analyzeBucketFull ⟨Except.ok "", some 200, some 200, some 403⟩ "b").canWrite =
        (analyzeBucketFull ⟨Except.error "timeout", some 200, some 200, some 403⟩ "b").canWrite) ∧
    ((analyzeBucketFull ⟨Except.ok "", some 200, some 200, some 403⟩ "b").awsRead =
        (analyzeBucketFull ⟨Except.ok "", none, none, none⟩ "b").awsRead ∧
      (analyzeBucketFull ⟨Except.ok "", some 200, some 200, some 403⟩ "b").files =
        (analyzeBucketFull ⟨Except.ok "", none, none, none⟩ "b").files) :=
  ⟨probe_failure_isolation_spec.1 (fun _ => ⟨Except.error "connection refused", none, none, none⟩)
      ["a-bucket", "b-bucket"],
   probe_failure_isolation_spec.2.1 ⟨Except.ok "", some 200, some 200, some 403⟩
      ⟨Except.error "timeout", some 200, some 200, some 403⟩ "b" rfl rfl rfl,
   probe_failure_isolation_spec.2.2 ⟨Except.ok "", some 200, some 200, some 403⟩
      ⟨Except.ok "", none, none, none⟩ "b" rfl⟩

/-- Environment of one part_002 probe in which the credentialed listing
fails with an access-denied reason while the HTTP HEAD answers 404. -/
def envDenied404 : Env002 :=
  { awsRun := Except.error
      "aws error: exit status 255 - An error occurred (AccessDenied) when calling the ListObjectsV2 operation: Access Denied",
    headResp := some 404, getResp := none, putResp := none }

/-- Counterexample to C1: in the dual-strategy prober of part_002 the
failure reason of the credentialed listing is discarded, so a failure whose
reason carries the access-denied marker does not make the verdict exist:
here the reason contains AccessDenied yet exists = false. -/
theorem credential_denied_not_exists_cex :
    strContains
      "aws error: exit status 255 - An error occurred (AccessDenied) when calling the ListObjectsV2 operation: Access Denied"
      "AccessDenied" = true ∧
    (analyzeBucketFull envDenied404 "internal-backups").found = false ∧
    (analyzeBucketFull envDenied404 "internal-backups").awsRead = false := by
  exact ⟨by decide, by decide, by decide⟩

/-- C1 as amended: in the CLI-only prober variants a credentialed-listing
failure is classified by its stderr text with the first matching rule
winning: a NoSuchBucket marker contributes nothing to exists; otherwise an
AccessDenied or AllAccessDisabled marker gives exists = true with
credentialRead = false; any other failure abstains (exists stays false,
credentialRead false). In the dual-strategy part_002 prober every
credentialed-listing failure abstains regardless of its reason string:
credentialRead = false, empty manifest, and exists is decided by the HTTP
strategy alone. -/
theorem credential_failure_classification_spec :
    (∀ (msg domain : String),
      (analyzeBucketCli (some msg) domain).found =
        (if strContains msg "NoSuchBucket" then false
         else strContains msg "AccessDenied" || strContains msg "AllAccessDisabled") ∧
      (analyzeBucketCli (some msg) domain).awsRead = false ∧
      (analyzeBucketCli (some msg) domain).canRead = false) ∧
    (∀ (env : Env002) (name msg : String), env.awsRun = Except.error msg →
      (analyzeBucketFull env name).awsRead = false ∧
      (analyzeBucketFull env name).files = [] ∧
      (analyzeBucketFull env name).found = headExists env) := by
  constructor
  · intro msg domain
    refine ⟨?_, ?_, ?_⟩ <;>
      (simp only [analyzeBucketCli]
       split
       · simp_all
       · split <;> simp_all)
  · intro env name msg h
    rw [analyzeBucketFull_eq]
    simp [checkAwsAccess, h]

/-- Witness for C1 as amended: a concrete part_002 probe whose listing
fails (access denied) while the bucket answers HTTP 200 shows the
abstention of strategy A, with exists decided by the HEAD answer. -/
theorem credential_failure_classification_witness :
    (analyzeBucketFull ⟨Except.error "An error occurred (AccessDenied)", some 200, some 200, some 403⟩
        "pub-bucket").awsRead = false ∧
    (analyzeBucketFull ⟨Except.error "An error occurred (AccessDenied)", some 200, some 200, some 403⟩
        "pub-bucket").files = [] ∧
    (analyzeBucketFull ⟨Except.error "An error occurred (AccessDenied)", some 200, some 200, some 403⟩
        "pub-bucket").found =
      headExists ⟨Except.error "An error occurred (AccessDenied)", some 200, some 200, some 403⟩ :=
  credential_failure_classification_spec.2
    ⟨Except.error "An error occurred (AccessDenied)", some 200, some 200, some 403⟩
    "pub-bucket" "An error occurred (AccessDenied)" rfl

/-- Counterexample to C3: main.go's quiet mode (the result loop at lines
226-232 followed by return) prints one CSV line per accessible verdict and
nothing else; the claimed trailing summary line never appears. Its whole
output for one found-and-readable bucket is the single CSV line. -/
theorem quiet_mode_no_summary_cex :
    mainGoQuietOutput [analyzeBucketCli none "flaws.cloud"] = ["flaws.cloud,true,false,true"] := by
  decide

/-- Helper: any verdict the part_002 prober can produce has exists set
whenever any access flag is set (the flags are only assigned inside
branches that set found). -/
theorem analyzeBucketFull_access_found (env : Env002) (name : String) :
    ((analyzeBucketFull env name).canRead || (analyzeBucketFull env name).canWrite ||
      (analyzeBucketFull env name).awsRead) = true → (analyzeBucketFull env name).found = true := by
  rw [analyzeBucketFull_eq]
  dsimp only
  generalize (checkAwsAccess env.awsRun).1 = a
  generalize headExists env = he
  generalize (checkBucketACL env.getResp env.putResp).1 = r
  generalize (checkBucketACL env.getResp env.putResp).2 = w
  revert a he r w
  decide

/-- Helper: on verdicts where access implies existence, part_002's CSV
filter (no found conjunct, processResults line 258) agrees with the
specification's filter exists && (read || write || aws). -/
theorem filterMap_quiet_eq (vs : List Result002)
    (hprod : ∀ v ∈ vs, (v.canRead || v.canWrite || v.awsRead) = true → v.found = true) :
    vs.filterMap (fun r =>
        if r.canRead || r.canWrite || r.awsRead then some (csvLine002 r) else none)
      = vs.filterMap (fun v =>
        if v.found && (v.canRead || v.canWrite || v.awsRead) then some (csvLine002 v) else none) := by
  induction vs with
  | nil => rfl
  | cons v rest ih =>
    have ihrest := ih (fun x hx hv => hprod x (List.mem_cons_of_mem _ hx) hv)
    have hv := hprod v (List.mem_cons_self _ _)
    rw [List.filterMap_cons, List.filterMap_cons, ihrest]
    cases hr : v.canRead <;> cases hw : v.canWrite <;> cases ha : v.awsRead <;>
      simp_all

/-- Helper: the total counter after folding Stats.increment over a list of
verdicts counts exactly those verdicts, from any starting state. -/
theorem foldl_increment_total_count (results : List Result002) :
    ∀ st : Stats,
      (results.foldl (fun st r => st.increment r.found r.canRead r.canWrite r.awsRead) st).total
        = st.total + results.length := by
  induction results with
  | nil => intro st; simp
  | cons r rest ih =>
    intro st
    rw [List.foldl_cons, ih]
    have hone : (st.increment r.found r.canRead r.canWrite r.awsRead).total = st.total + 1 := by
      cases hf : r.found <;> cases hr : r.canRead <;> cases hw : r.canWrite <;>
        cases ha : r.awsRead <;> simp [Stats.increment]
    rw [hone, List.length_cons]
    omega

/-- Helper: output characterization of part_002's quiet mode. In every
reachable quiet-mode state, before the summary print the output is exactly
the CSV stream of the consumed verdicts; after it, the output is the CSV
stream of the verdicts consumed by print time, then the summary counting
exactly those, then the CSV lines of verdicts consumed since. Nothing
places the summary after the whole stream. -/
theorem quietOut_characterization (probe : String → Result002) (target w : Nat)
    (names : List String) (q : QuietState)
    (h : Relation.ReflTransGen (QuietStep probe target w) (quietInit names w) q) :
    (q.summaryDone = false ∧ q.out = consumerCsvOut q.pool.consumed) ∨
    (q.summaryDone = true ∧ ∃ c1 c2, q.pool.consumed = c1 ++ c2 ∧
      q.out = consumerCsvOut c1 ++ summaryLine (statsOf002 c1) :: consumerCsvOut c2) := by
  induction h with
  | refl => exact Or.inl ⟨rfl, rfl⟩
  | tail hsteps hstep ih =>
    cases hstep with
    | enqueue d rest h1 h2 => exact ih
    | closeJobs h1 h2 h3 => exact ih
    | takeJob d rest h1 h2 h3 => exact ih
    | finishProbe d h1 h2 => exact ih
    | exitWorker h1 h2 h3 h4 => exact ih
    | closeResults h1 h2 h3 => exact ih
    | consume r rest h1 h2 h3 =>
      rcases ih with ⟨hs, hout⟩ | ⟨hs, c1, c2, hc, hout⟩
      · refine Or.inl ⟨hs, ?_⟩
        rw [hout]
        unfold consumerCsvOut
        rw [List.filterMap_append]
        cases hr2 : r.canRead <;> cases hw2 : r.canWrite <;> cases ha2 : r.awsRead <;>
          simp [List.filterMap_cons, hr2, hw2, ha2]
      · refine Or.inr ⟨hs, c1, c2 ++ [r], ?_, ?_⟩
        · rw [hc, List.append_assoc]
        · rw [hout]
          unfold consumerCsvOut
          rw [List.filterMap_append, List.append_assoc, List.cons_append]
          cases hr2 : r.canRead <;> cases hw2 : r.canWrite <;> cases ha2 : r.awsRead <;>
            simp [List.filterMap_cons, hr2, hw2, ha2]
    | summaryPrint h1 h2 h3 =>
      rcases ih with ⟨hs, hout⟩ | ⟨hs, c1, c2, hc, hout⟩
      · refine Or.inr ⟨rfl, _, [], (List.append_nil _).symm, ?_⟩
        dsimp only
        rw [hout]
        simp [consumerCsvOut]
      · rw [hs] at h3
        cases h3
    | mainReturn h1 h2 => exact ih

/-- Helper: an execution of the quiet-mode machine in which main prints
the summary counting zero verdicts and returns before the consumer ever
ran: the only verdict, which qualifies for a CSV line, still sits in the
results queue when the process halts, and its CSV line is never printed.
This is the schedule reader, close(jobs), worker takes and probes, worker
exits, close(results), summary print, return. -/
theorem quiet_summary_race :
    ∃ q : QuietState,
      Relation.ReflTransGen (QuietStep probeOk 1 1) (quietInit ["bucket-a"] 1) q ∧
      q.halted = true ∧ q.pool.consumed = ([] : List Result002) ∧
      q.out = [summaryLine (statsOf002 ([] : List Result002))] ∧
      q.pool.resultsQ = [probeOk "bucket-a"] := by
  exact ⟨_, Relation.ReflTransGen.tail (Relation.ReflTransGen.tail (Relation.ReflTransGen.tail
    (Relation.ReflTransGen.tail (Relation.ReflTransGen.tail (Relation.ReflTransGen.tail
      (Relation.ReflTransGen.tail (Relation.ReflTransGen.tail Relation.ReflTransGen.refl
        (QuietStep.enqueue _ "bucket-a" [] rfl rfl))
        (QuietStep.closeJobs _ rfl rfl rfl))
        (QuietStep.takeJob _ "bucket-a" [] rfl rfl (by decide)))
        (QuietStep.finishProbe _ "bucket-a" rfl (by decide)))
        (QuietStep.exitWorker _ rfl (by decide) rfl rfl))
        (QuietStep.closeResults _ rfl rfl rfl))
        (QuietStep.summaryPrint _ rfl rfl rfl))
        (QuietStep.mainReturn _ rfl rfl),
    rfl, rfl, rfl, rfl⟩

/-- C3 as amended: part_002's quiet-mode consumer prints exactly one CSV
line, name then publicRead, publicWrite, credentialRead as literal
true/false, per consumed verdict with an access flag set, in consumption
order; on the verdicts this prober can produce that filter coincides with
the claimed exists && (publicRead || publicWrite || credentialRead). The
summary line main prints has the claimed format but counts exactly the
verdicts consumed at the instant of the print, and the program does not
synchronize that print with the consumer: in every reachable quiet-mode
state the output is the consumed CSV stream with the summary, once
printed, inserted after the lines of the verdicts consumed before it; and
one execution halts with the summary printed counting zero verdicts while
the single qualifying verdict sits unconsumed and its CSV line is never
printed. (The TUI variant's quiet mode prints CSV lines and no summary at
all.) -/
theorem quiet_mode_output_spec :
    (∀ vs : List Result002, (∀ v ∈ vs, ∃ env name, v = analyzeBucketFull env name) →
      consumerCsvOut vs = vs.filterMap (fun v =>
        if v.found && (v.canRead || v.canWrite || v.awsRead)
        then some (csvLine002 v) else none)) ∧
    (∀ vs : List Result002, (statsOf002 vs).total = vs.length) ∧
    (∀ (probe : String → Result002) (target w : Nat) (names : List String) (q : QuietState),
      Relation.ReflTransGen (QuietStep probe target w) (quietInit names w) q →
      (q.summaryDone = false ∧ q.out = consumerCsvOut q.pool.consumed) ∨
      (q.summaryDone = true ∧ ∃ c1 c2, q.pool.consumed = c1 ++ c2 ∧
        q.out = consumerCsvOut c1 ++ summaryLine (statsOf002 c1) :: consumerCsvOut c2)) ∧
    (∃ q : QuietState,
      Relation.ReflTransGen (QuietStep probeOk 1 1) (quietInit ["bucket-a"] 1) q ∧
      q.halted = true ∧ q.pool.consumed = ([] : List Result002) ∧
      q.out = [summaryLine (statsOf002 ([] : List Result002))] ∧
      q.pool.resultsQ = [probeOk "bucket-a"]) := by
  refine ⟨?_, ?_, quietOut_characterization, quiet_summary_race⟩
  · intro vs hprod
    refine filterMap_quiet_eq vs ?_
    intro v hv hb
    obtain ⟨env, name, rfl⟩ := hprod v hv
    exact analyzeBucketFull_access_found env name hb
  · intro vs
    have h := foldl_increment_total_count vs {}
    simpa [statsOf002] using h

/-- Witness for C3 as amended: the filter equivalence applied to a
one-verdict list produced by the prober, and the output characterization
applied to the (reachable) initial state. -/
theorem quiet_mode_output_witness :
    (consumerCsvOut [analyzeBucketFull ⟨Except.ok "", some 200, some 200, some 403⟩ "pub-bucket"]
      = [analyzeBucketFull ⟨Except.ok "", some 200, some 200, some 403⟩ "pub-bucket"].filterMap
          (fun v => if v.found && (v.canRead || v.canWrite || v.awsRead)
            then some (csvLine002 v) else none)) ∧
    (((quietInit ["bucket-a"] 1).summaryDone = false ∧
        (quietInit ["bucket-a"] 1).out =
          consumerCsvOut (quietInit ["bucket-a"] 1).pool.consumed) ∨
      ((quietInit ["bucket-a"] 1).summaryDone = true ∧ ∃ c1 c2,
        (quietInit ["bucket-a"] 1).pool.consumed = c1 ++ c2 ∧
        (quietInit ["bucket-a"] 1).out =
          consumerCsvOut c1 ++ summaryLine (statsOf002 c1) :: consumerCsvOut c2)) :=
  ⟨quiet_mode_output_spec.1
      [analyzeBucketFull ⟨Except.ok "", some 200, some 200, some 403⟩ "pub-bucket"]
      (by
        intro v hv
        rcases List.mem_singleton.1 hv with rfl
        exact ⟨⟨Except.ok "", some 200, some 200, some 403⟩, "pub-bucket", rfl⟩),
   quiet_mode_output_spec.2.2.1 probeOk 1 1 ["bucket-a"] (quietInit ["bucket-a"] 1)
      Relation.ReflTransGen.refl⟩

/-- Counterexample to C6: the quiet-mode reader of main.go (lines 213-223)
has no wildcard check, so a candidate beginning with the wildcard marker is
enqueued, probed, and counted in total. -/
theorem wildcard_not_skipped_cex :
    quietNormalize "*.example.com" = some "*.example.com" ∧
    (statsOfCli (quietScanCli (fun _ => some "An error occurred (NoSuchBucket)")
      ["*.example.com"])).total = 1 := by
  exact ⟨by decide, by decide⟩

/-- C6 as amended: only the interactive-mode reader of main.go skips
candidates whose trimmed form begins with the wildcard marker: there they
never enter the job list and contribute nothing to the statistics of the
scan; the quiet-mode reader enqueues any non-empty trimmed candidate,
wildcard or not. -/
theorem wildcard_skip_spec (raw : String) (envf : String → AwsCliOutcome)
    (lines : List String) (h : goHasPre (goTrimSpace raw) "*" = true) :
    interactiveNormalize raw = none ∧
    interactiveJobs (raw :: lines) = interactiveJobs lines ∧
    statsOfCli (interactiveScanCli envf (raw :: lines)) =
      statsOfCli (interactiveScanCli envf lines) ∧
    ((goTrimSpace raw != "") = true →
      quietJobs (raw :: lines) = goTrimSpace raw :: quietJobs lines) := by
  have hnorm : interactiveNormalize raw = none := by
    simp [interactiveNormalize, h]
  have hjobs : interactiveJobs (raw :: lines) = interactiveJobs lines := by
    simp [interactiveJobs, List.filterMap_cons, hnorm]
  refine ⟨hnorm, hjobs, ?_, ?_⟩
  · unfold interactiveScanCli
    rw [hjobs]
  · intro hne
    simp [quietJobs, List.filterMap_cons, quietNormalize, hne]

/-- Witness for C6 as amended: the wildcard line *.example.com is dropped
by the interactive reader and leaves the scan statistics unchanged, while
the quiet reader keeps it. -/
theorem wildcard_skip_witness :
    interactiveNormalize "*.example.com" = none ∧
    interactiveJobs ["*.example.com", "flaws.cloud"] = interactiveJobs ["flaws.cloud"] ∧
    statsOfCli (interactiveScanCli (fun _ => none) ["*.example.com", "flaws.cloud"]) =
      statsOfCli (interactiveScanCli (fun _ => none) ["flaws.cloud"]) ∧
    ((goTrimSpace "*.example.com" != "") = true →
      quietJobs ["*.example.com", "flaws.cloud"] =
        goTrimSpace "*.example.com" :: quietJobs ["flaws.cloud"]) :=
  wildcard_skip_spec "*.example.com" (fun _ => none) ["flaws.cloud"] (by decide)

/-- Helper: every pool step strictly decreases the measure, so every
execution of the part_002 pipeline is finite. -/
theorem poolStep_measure (probe : String → Result002) (target w : Nat)
    (s t : PoolState) (h : PoolStep probe target w s t) :
    poolMeasure t < poolMeasure s := by
  cases h with
  | enqueue d rest hin =>
    simp [poolMeasure, hin, List.length_append]
    omega
  | closeJobs hin hjc =>
    simp [poolMeasure, hjc]
  | takeJob d rest hjobs hwait =>
    simp [poolMeasure, hjobs]
    omega
  | finishProbe d hd =>
    have h1 : Multiset.card (s.probingJobs.erase d) = Multiset.card s.probingJobs - 1 := by
      rw [Multiset.card_erase_of_mem hd, Nat.pred_eq_sub_one]
    have h2 : 0 < Multiset.card s.probingJobs :=
      Multiset.card_pos_iff_exists_mem.2 ⟨d, hd⟩
    simp [poolMeasure, h1, List.length_append]
    omega
  | exitWorker hwait hjc hjobs =>
    simp [poolMeasure]
    omega
  | closeResults hex hrc =>
    simp [poolMeasure, hrc]
  | consume r rest hres hlt =>
    simp [poolMeasure, hres, List.length_append]

/-- Helper: the invariant holds in the initial pool state. -/
theorem poolInv_init (names : List String) (w : Nat) : PoolInv names w (poolInit names w) := by
  refine ⟨?_, ?_, ?_, ?_, ?_⟩
  · simp [poolNames, poolInit]
  · simp [poolInit]
  · intro h; simp [poolInit] at h
  · intro h; simp [poolInit] at h
  · simp [poolInit]

/-- Helper: the invariant is preserved by every pool step, provided the
probe carries the bucket name into the verdict. -/
theorem poolInv_step (probe : String → Result002) (names : List String) (w : Nat)
    (hdom : ∀ d, (probe d).domain = d) (s t : PoolState)
    (hstep : PoolStep probe names.length w s t) (hinv : PoolInv names w s) :
    PoolInv names w t := by
  obtain ⟨hcons, hwork, hci, hed, hcl⟩ := hinv
  cases hstep with
  | enqueue d rest hin =>
    refine ⟨?_, hwork, ?_, ?_, hcl⟩
    · rw [← hcons]
      simp only [poolNames, hin, ← Multiset.cons_coe, ← Multiset.coe_add, Multiset.coe_nil]
      simp only [← Multiset.singleton_add]
      abel
    · intro h
      have hinem := hci h
      rw [hinem] at hin
      simp at hin
    · intro h
      rw [hci (hed h).1] at hin
      simp at hin
  | closeJobs hin hjc =>
    exact ⟨hcons, hwork, fun _ => hin, fun h => ⟨rfl, (hed h).2⟩, hcl⟩
  | takeJob d rest hjobs hwait =>
    refine ⟨?_, ?_, hci, ?_, hcl⟩
    · rw [← hcons]
      simp only [poolNames, hjobs, ← Multiset.cons_coe]
      simp only [← Multiset.singleton_add]
      abel
    · dsimp only
      rw [Multiset.card_cons]
      omega
    · intro h
      have h2 := (hed h).2
      rw [hjobs] at h2
      simp at h2
  | finishProbe d hd =>
    refine ⟨?_, ?_, hci, ?_, hcl⟩
    · rw [← hcons]
      have herase : d ::ₘ s.probingJobs.erase d = s.probingJobs := Multiset.cons_erase hd
      simp only [poolNames, List.map_append, List.map_cons, List.map_nil, hdom d,
        ← Multiset.coe_add, Multiset.coe_singleton]
      conv_rhs => rw [← herase]
      simp only [← Multiset.singleton_add]
      abel
    · dsimp only
      have h1 : Multiset.card (s.probingJobs.erase d) = Multiset.card s.probingJobs - 1 := by
        rw [Multiset.card_erase_of_mem hd, Nat.pred_eq_sub_one]
      have h2 : 0 < Multiset.card s.probingJobs :=
        Multiset.card_pos_iff_exists_mem.2 ⟨d, hd⟩
      rw [h1]
      omega
    · intro h
      exact ⟨(hed h).1, (hed h).2⟩
  | exitWorker hwait hjc hjobs =>
    refine ⟨hcons, ?_, hci, fun _ => ⟨hjc, hjobs⟩, hcl⟩
    dsimp only
    omega
  | closeResults hex hrc =>
    exact ⟨hcons, hwork, hci, hed, hcl⟩
  | consume r rest hres hlt =>
    refine ⟨?_, hwork, hci, fun h => ⟨(hed h).1, (hed h).2⟩, ?_⟩
    · rw [← hcons]
      simp only [poolNames, hres, List.map_append, List.map_cons, List.map_nil,
        ← Multiset.coe_add, ← Multiset.cons_coe, Multiset.coe_nil]
      simp only [← Multiset.singleton_add]
      abel
    · dsimp only
      rw [List.length_append, List.length_cons, List.length_nil]
      omega

/-- Helper: the invariant holds in every state reachable from the initial
state of a scan. -/
theorem poolInv_reach (probe : String → Result002) (names : List String) (w : Nat)
    (hdom : ∀ d, (probe d).domain = d) (s : PoolState)
    (h : Relation.ReflTransGen (PoolStep probe names.length w) (poolInit names w) s) :
    PoolInv names w s := by
  induction h with
  | refl => exact poolInv_init names w
  | tail hsteps hstep ih => exact poolInv_step probe names w hdom _ _ hstep ih

/-- Helper: as long as fewer verdicts have been consumed than names were
supplied, some pipeline step is enabled (the pipeline cannot get stuck
early: no deadlock). -/
theorem pool_progress (probe : String → Result002) (names : List String) (w : Nat)
    (hw : 0 < w) (s : PoolState) (hinv : PoolInv names w s)
    (hlt : s.consumed.length < names.length) :
    ∃ t, PoolStep probe names.length w s t := by
  obtain ⟨hcons, hwork, hci, hed, hcl⟩ := hinv
  cases hin : s.input with
  | cons d rest => exact ⟨_, .enqueue s d rest hin⟩
  | nil =>
    cases hjc : s.jobsClosed with
    | false => exact ⟨_, .closeJobs s hin hjc⟩
    | true =>
      cases hjobs : s.jobs with
      | cons d rest =>
        have hex : s.exited = 0 := by
          by_contra h0
          have h2 := (hed (Nat.pos_of_ne_zero h0)).2
          rw [h2] at hjobs
          simp at hjobs
        rcases Nat.eq_zero_or_pos s.waiting with hwait | hwait
        · have hcard : 0 < Multiset.card s.probingJobs := by omega
          obtain ⟨x, hx⟩ := Multiset.card_pos_iff_exists_mem.1 hcard
          exact ⟨_, .finishProbe s x hx⟩
        · exact ⟨_, .takeJob s d rest hjobs hwait⟩
      | nil =>
        rcases Nat.eq_zero_or_pos (Multiset.card s.probingJobs) with hcard | hcard
        · cases hres : s.resultsQ with
          | cons r rest => exact ⟨_, .consume s r rest hres hlt⟩
          | nil =>
            rcases Nat.eq_zero_or_pos s.waiting with hwait | hwait
            · exfalso
              have hpq : s.probingJobs = 0 := Multiset.card_eq_zero.1 hcard
              have hc := congrArg Multiset.card hcons
              simp only [poolNames, hin, hjobs, hres, hpq, Multiset.coe_nil,
                Multiset.card_add, Multiset.coe_card, List.length_nil, List.length_map,
                Multiset.card_zero] at hc
              omega
            · exact ⟨_, .exitWorker s hwait hjc hjobs⟩
        · obtain ⟨x, hx⟩ := Multiset.card_pos_iff_exists_mem.1 hcard
          exact ⟨_, .finishProbe s x hx⟩

/-- Helper: any reachable state from which no step is possible is a clean
completion: all names consumed exactly once, queues closed and drained,
all workers exited. -/
theorem pool_stuck_final (probe : String → Result002) (names : List String) (w : Nat)
    (hdom : ∀ d, (probe d).domain = d) (hw : 0 < w) (s : PoolState)
    (hreach : Relation.ReflTransGen (PoolStep probe names.length w) (poolInit names w) s)
    (hstuck : ∀ t, ¬ PoolStep probe names.length w s t) :
    s.consumed.length = names.length ∧ (s.consumed.map Result002.domain).Perm names ∧
    s.jobsClosed = true ∧ s.jobs = [] ∧ s.resultsQ = [] ∧ s.probingJobs = 0 ∧
    s.waiting = 0 ∧ s.exited = w ∧ s.resultsClosed = true := by
  have hinv := poolInv_reach probe names w hdom s hreach
  have hfull : s.consumed.length = names.length := by
    rcases Nat.lt_or_ge s.consumed.length names.length with h | h
    · obtain ⟨t, ht⟩ := pool_progress probe names w hw s hinv h
      exact absurd ht (hstuck t)
    · exact Nat.le_antisymm hinv.consumed_le h
  obtain ⟨hcons, hwork, hci, hed, hcl⟩ := hinv
  have hc := congrArg Multiset.card hcons
  simp only [poolNames, Multiset.card_add, Multiset.coe_card, List.length_map] at hc
  have hinem : s.input = [] := List.length_eq_zero.1 (by omega)
  have hjobs : s.jobs = [] := List.length_eq_zero.1 (by omega)
  have hres : s.resultsQ = [] := List.length_eq_zero.1 (by omega)
  have hpq : s.probingJobs = 0 := Multiset.card_eq_zero.1 (by omega)
  have hjc : s.jobsClosed = true := by
    cases h : s.jobsClosed with
    | true => rfl
    | false => exact absurd (PoolStep.closeJobs s hinem h) (hstuck _)
  have hwait : s.waiting = 0 := by
    rcases Nat.eq_zero_or_pos s.waiting with h | h
    · exact h
    · exact absurd (PoolStep.exitWorker s h hjc hjobs) (hstuck _)
  have hex : s.exited = w := by
    rw [hwait, hpq] at hwork
    simpa using hwork
  have hrc : s.resultsClosed = true := by
    cases h : s.resultsClosed with
    | true => rfl
    | false => exact absurd (PoolStep.closeResults s hex h) (hstuck _)
  refine ⟨hfull, ?_, hjc, hjobs, hres, hpq, hwait, hex, hrc⟩
  rw [poolNames, hinem, hjobs, hres, hpq] at hcons
  simp only [Multiset.coe_nil, List.map_nil, zero_add, add_zero] at hcons
  exact Multiset.coe_eq_coe.1 hcons

/-- C4: a bulk scan over a finite input of N names with any positive worker
count terminates and completes: every pipeline step strictly decreases a
natural-number measure (so no execution, i.e. no interleaving of the
reader, the workers, the supervisor and the consumer, runs forever or
deadlocks), and every reachable state from which no step is enabled has
the job queue closed and drained, every worker exited, the result queue
closed and drained, and exactly N verdicts consumed whose names are a
permutation of the input names (each input name appearing exactly once,
counted with multiplicity). -/
theorem pool_scan_spec (probe : String → Result002) (names : List String) (w : Nat)
    (hdom : ∀ d, (probe d).domain = d) (hw : 0 < w) :
    (∀ s t, PoolStep probe names.length w s t → poolMeasure t < poolMeasure s) ∧
    (∀ s, Relation.ReflTransGen (PoolStep probe names.length w) (poolInit names w) s →
      (∀ t, ¬ PoolStep probe names.length w s t) →
      s.consumed.length = names.length ∧ (s.consumed.map Result002.domain).Perm names ∧
      s.jobsClosed = true ∧ s.jobs = [] ∧ s.resultsQ = [] ∧ s.probingJobs = 0 ∧
      s.waiting = 0 ∧ s.exited = w ∧ s.resultsClosed = true) :=
  ⟨fun s t h => poolStep_measure probe names.length w s t h,
   fun s hreach hstuck => pool_stuck_final probe names w hdom hw s hreach hstuck⟩

/-- A concrete probe for the C4 witness: the part_002 prober under an
environment in which every external operation fails. -/
def probeNoAws (d : String) : Result002 :=
  analyzeBucketFull ⟨Except.error "connection timed out", none, none, none⟩ d

/-- Witness for C4: the pipeline spec instantiated at a two-name scan with
one worker and a probe whose operations all fail. -/
theorem pool_scan_witness :
    (∀ s t, PoolStep probeNoAws 2 1 s t → poolMeasure t < poolMeasure s) ∧
    (∀ s, Relation.ReflTransGen (PoolStep probeNoAws 2 1) (poolInit ["alpha", "beta"] 1) s →
      (∀ t, ¬ PoolStep probeNoAws 2 1 s t) →
      s.consumed.length = 2 ∧ (s.consumed.map Result002.domain).Perm ["alpha", "beta"] ∧
      s.jobsClosed = true ∧ s.jobs = [] ∧ s.resultsQ = [] ∧ s.probingJobs = 0 ∧
      s.waiting = 0 ∧ s.exited = 1 ∧ s.resultsClosed = true) :=
  pool_scan_spec probeNoAws ["alpha", "beta"] 1
    (fun d => analyzeBucketFull_domain ⟨Except.error "connection timed out", none, none, none⟩ d)
    (by decide)
